import Mathlib

/-!
Shallow embedding of the Spotify collection agent (`API_Agent_2.py`,
class `SpotifyAIDataAgent`): token lifecycle, adaptive delay controller,
statistics and the orchestration loop `run`.

Modelling conventions:
* Python float timestamps and delays are modelled as rationals (`ℚ`).
  The delay arithmetic relevant to the claims (`delay * 2`, `min (· , 10)`,
  `max (· , floor)`) is exact in binary floating point for the magnitudes
  involved, so the rational model is faithful for the bound and escalation
  claims; the decay factor `0.9` is modelled as `9/10`.
* HTTP and JSON nondeterminism is made explicit: each outbound call takes a
  response outcome (`TokenResponse`, `SearchResponse`, `DetailResponse`)
  describing where, if anywhere, the Python code would raise.
* A raised exception carries the (possibly mutated) agent state out of the
  function: fallible operations return `Except AgentState ...`, where the
  `.error` payload is the state at the moment of the raise.
* `respectful_calls` is an instrumentation counter: it counts invocations of
  `respectful_delay` (i.e. its `time.sleep`), which no real field records;
  it is touched nowhere else.
* The configured floor `collection_settings.min_delay_seconds` is passed as
  the parameter `min_delay` to the functions that read it from the config.
-/

namespace SpotifyAgent

/-- The `self.stats` dictionary (lines 32-37). -/
structure Stats where
  total_requests : Nat
  successful_requests : Nat
  failed_requests : Nat
  quality_passed : Nat
deriving DecidableEq, Repr

/-- A parsed artist JSON object, with the fields the agent reads.
`none` models an absent key (`dict.get` returning `None`). -/
structure ArtistData where
  id : Option String
  name : Option String
  genres : Option (List String)
  spotify_url : Option String
  popularity : Option Int
  followers : Option Int
deriving DecidableEq, Repr

/-- A record appended to `self.collected_artists` (lines 180-187). -/
structure CollectedArtist where
  id : Option String
  name : Option String
  genres : Option (List String)
  spotify_url : Option String
  popularity : Option Int
  followers : Option Int
deriving DecidableEq, Repr

/-- The mutable instance fields of `SpotifyAIDataAgent`. -/
structure AgentState where
  token : Option String
  token_expiry : Option ℚ
  stats : Stats
  collected_artists : List CollectedArtist
  delay : ℚ
  respectful_calls : Nat
deriving DecidableEq, Repr

/-- `__init__` (lines 29-38): no token, empty stats and results,
`delay = min_delay_seconds`. -/
def initState (min_delay : ℚ) : AgentState :=
  { token := none
    token_expiry := none
    stats := ⟨0, 0, 0, 0⟩
    collected_artists := []
    delay := min_delay
    respectful_calls := 0 }

/-- Outcome of the token-endpoint POST in `get_access_token`:
the request itself raises, `raise_for_status` raises, `response.json()`
raises, or a parsed JSON body whose `access_token` / `expires_in` keys
may each be absent (absence makes the corresponding subscript raise
`KeyError`). -/
inductive TokenResponse where
  | netError : TokenResponse
  | httpError : TokenResponse
  | badJson : TokenResponse
  | body : Option String → Option ℚ → TokenResponse
deriving DecidableEq, Repr

/-- `get_access_token` (lines 65-85). Any exception is logged and re-raised
(`raise`), carrying whatever state mutations already happened: in
particular `self.token = token_data["access_token"]` executes before
`token_data["expires_in"]` is read, so a body with an access token but no
`expires_in` leaves the token updated and the expiry untouched. -/
def get_access_token (now : ℚ) (s : AgentState) : TokenResponse → Except AgentState AgentState
  | .netError => .error s
  | .httpError => .error s
  | .badJson => .error s
  | .body tok exp =>
    match tok with
    | none => .error s
    | some t =>
      let s1 := { s with token := some t }
      match exp with
      | none => .error s1
      | some e => .ok { s1 with token_expiry := some (now + e) }

/-- The condition of `ensure_token_valid` (line 88):
`self.token is None or now > self.token_expiry - 60`. The arm where the
token exists but the expiry is `None` would be a Python `TypeError`;
that state is unreachable in normal operation (the two fields are set
together on every successful refresh). -/
def needs_refresh (now : ℚ) (s : AgentState) : Bool :=
  match s.token with
  | none => true
  | some _ =>
    match s.token_expiry with
    | none => true
    | some e => decide (now > e - 60)

/-- `ensure_token_valid` (lines 87-89). The returned `Nat` counts network
calls made (one POST per refresh attempt, zero when the token is reused). -/
def ensure_token_valid (now : ℚ) (s : AgentState) (r : TokenResponse) :
    Except AgentState (AgentState × Nat) :=
  if needs_refresh now s then
    match get_access_token now s r with
    | .error s1 => .error s1
    | .ok s1 => .ok (s1, 1)
  else .ok (s, 0)

/-- Number of network calls an `ensure_token_valid` invocation performs
(a raising refresh attempt still made its one POST). -/
def ensure_calls (now : ℚ) (s : AgentState) (r : TokenResponse) : Nat :=
  match ensure_token_valid now s r with
  | .error _ => 1
  | .ok (_, n) => n

/-- `self.stats['total_requests'] += 1`. -/
def bump_total (s : AgentState) : AgentState :=
  { s with stats := { s.stats with total_requests := s.stats.total_requests + 1 } }

/-- `self.stats['successful_requests'] += 1`. -/
def bump_success (s : AgentState) : AgentState :=
  { s with stats := { s.stats with successful_requests := s.stats.successful_requests + 1 } }

/-- `self.stats['failed_requests'] += 1`. -/
def bump_failed (s : AgentState) : AgentState :=
  { s with stats := { s.stats with failed_requests := s.stats.failed_requests + 1 } }

/-- `adapt_delay` (lines 143-146): `self.delay = min(self.delay * 2, 10)`,
then a sleep (no further state change). -/
def adapt_delay (s : AgentState) : AgentState :=
  { s with delay := min (s.delay * 2) 10 }

/-- Outcome of the GET in `search_artist`: the request raises, a non-2xx
status makes `raise_for_status` raise, `response.json()` raises, or a
parsed items list (possibly empty). -/
inductive SearchResponse where
  | netError : SearchResponse
  | httpError : SearchResponse
  | badJson : SearchResponse
  | items : List ArtistData → SearchResponse
deriving DecidableEq, Repr

/-- `search_artist` (lines 91-116). `ensure_token_valid` runs OUTSIDE the
try block, so a refresh failure propagates out of this function. Inside
the try: `total_requests` is incremented after the GET returns, so a
request that raises in flight bumps only `failed_requests`; an empty items
list bumps `failed_requests` on top of `total` and `successful` without
calling `adapt_delay`; any exception path bumps `failed_requests` and
calls `adapt_delay`, then returns `None`. -/
def search_artist (now : ℚ) (s : AgentState) (rt : TokenResponse) (r : SearchResponse) :
    Except AgentState (AgentState × Option ArtistData) :=
  match ensure_token_valid now s rt with
  | .error s1 => .error s1
  | .ok (s0, _) =>
    match r with
    | .netError => .ok (adapt_delay (bump_failed s0), none)
    | .httpError => .ok (adapt_delay (bump_failed (bump_total s0)), none)
    | .badJson => .ok (adapt_delay (bump_failed (bump_success (bump_total s0))), none)
    | .items l =>
      let s1 := bump_success (bump_total s0)
      match l with
      | [] => .ok (bump_failed s1, none)
      | a :: _ => .ok (s1, some a)

/-- Outcome of the GET in `get_artist_details`: as for search, but a
successful parse yields a single artist object. -/
inductive DetailResponse where
  | netError : DetailResponse
  | httpError : DetailResponse
  | badJson : DetailResponse
  | payload : ArtistData → DetailResponse
deriving DecidableEq, Repr

/-- `get_artist_details` (lines 118-133); same structure as `search_artist`,
`ensure_token_valid` again outside the try block. -/
def get_artist_details (now : ℚ) (s : AgentState) (rt : TokenResponse) (r : DetailResponse) :
    Except AgentState (AgentState × Option ArtistData) :=
  match ensure_token_valid now s rt with
  | .error s1 => .error s1
  | .ok (s0, _) =>
    match r with
    | .netError => .ok (adapt_delay (bump_failed s0), none)
    | .httpError => .ok (adapt_delay (bump_failed (bump_total s0)), none)
    | .badJson => .ok (adapt_delay (bump_failed (bump_success (bump_total s0))), none)
    | .payload d => .ok (bump_success (bump_total s0), some d)

/-- Python truthiness of `artist_data.get("name")`: a present, non-empty
string. -/
def truthy_str : Option String → Bool
  | none => false
  | some s => !s.isEmpty

/-- Python truthiness of `artist_data.get("genres")`: a present, non-empty
list. -/
def truthy_list : Option (List String) → Bool
  | none => false
  | some l => !l.isEmpty

/-- `assess_data_quality` (lines 135-141): `bool(artist_data and
artist_data.get("name") and artist_data.get("genres") and
len(artist_data.get("genres")) > 0)`. The input is `None` or a parsed
object; `dict.get` on a missing key yields `None`. -/
def assess_data_quality : Option ArtistData → Bool
  | none => false
  | some a =>
    truthy_str a.name && truthy_list a.genres &&
      decide (0 < (a.genres.getD []).length)

/-- `respectful_delay` (lines 148-158): sleep for `delay * jitter` (the
jitter only scales the sleep, never the stored delay; the sleep is recorded
in the instrumentation counter), then, if `delay > min_delay_seconds`,
decay: `self.delay = max(self.delay * 0.9, min_delay_seconds)`. -/
def respectful_delay (min_delay : ℚ) (s : AgentState) : AgentState :=
  let s1 := { s with respectful_calls := s.respectful_calls + 1 }
  if min_delay < s1.delay then
    { s1 with delay := max (s1.delay * (9 / 10)) min_delay }
  else s1

/-- The per-entity environment: the times at which the two
`ensure_token_valid` checks run and the outcomes of the token and data
requests for this loop iteration. -/
structure EntityEnv where
  now1 : ℚ
  tok1 : TokenResponse
  search : SearchResponse
  now2 : ℚ
  tok2 : TokenResponse
  detail : DetailResponse

/-- The record built at lines 180-187: `id` from the search hit, the rest
from the details object (`external_urls.get("spotify")` and
`followers.get("total")` are modelled as the flattened optional fields). -/
def mk_record (basic details : ArtistData) : CollectedArtist :=
  { id := basic.id
    name := details.name
    genres := details.genres
    spotify_url := details.spotify_url
    popularity := details.popularity
    followers := details.followers }

/-- Lines 179-193 of the loop body: quality-gate the details, on pass
append the record and bump `quality_passed`, then `respectful_delay`
(which runs whether or not the gate passed). -/
def collect_if_quality (min_delay : ℚ) (basic details : ArtistData) (s2 : AgentState) :
    AgentState :=
  respectful_delay min_delay
    (if assess_data_quality (some details) then
      { s2 with
        collected_artists := s2.collected_artists ++ [mk_record basic details]
        stats := { s2.stats with quality_passed := s2.stats.quality_passed + 1 } }
    else s2)

/-- Lines 174-193 of the loop body, after a search hit `basic`: fetch the
details; on `None` `continue` (no `respectful_delay`); otherwise
quality-gate and pace. -/
def detail_and_collect (min_delay : ℚ) (e : EntityEnv) (basic : ArtistData) (s1 : AgentState) :
    Except AgentState AgentState :=
  match get_artist_details e.now2 s1 e.tok2 e.detail with
  | .error s2 => .error s2
  | .ok (s2, none) => .ok s2
  | .ok (s2, some details) => .ok (collect_if_quality min_delay basic details s2)

/-- One iteration of the `run` loop body (lines 167-193): search; on a
`None` result `continue` (no `respectful_delay`); otherwise proceed to the
detail fetch and the quality gate. An exception from a token refresh
propagates (there is no enclosing try). -/
def process_artist (min_delay : ℚ) (e : EntityEnv) (s : AgentState) :
    Except AgentState AgentState :=
  match search_artist e.now1 s e.tok1 e.search with
  | .error s1 => .error s1
  | .ok (s1, none) => .ok s1
  | .ok (s1, some basic) => detail_and_collect min_delay e basic s1

/-- The `run` loop (lines 160-198) over the configured target list: one
`process_artist` per entry; an uncaught exception aborts the whole loop. -/
def run (min_delay : ℚ) : List EntityEnv → AgentState → Except AgentState AgentState
  | [], s => .ok s
  | e :: rest, s =>
    match process_artist min_delay e s with
    | .error s1 => .error s1
    | .ok s1 => run min_delay rest s1

/-- A single API call as observed by the statistics: a `search_artist` or a
`get_artist_details` invocation with its response outcomes. -/
inductive ApiEvent where
  | search : ℚ → TokenResponse → SearchResponse → ApiEvent
  | detail : ℚ → TokenResponse → DetailResponse → ApiEvent

/-- The agent state after one API call, whichever way it ends (normal
return or exception). -/
def apply_event (ev : ApiEvent) (s : AgentState) : AgentState :=
  match ev with
  | .search now tok r =>
    match search_artist now s tok r with
    | .error s1 => s1
    | .ok (s1, _) => s1
  | .detail now tok r =>
    match get_artist_details now s tok r with
    | .error s1 => s1
    | .ok (s1, _) => s1

/-- The agent state after a sequence of API calls. -/
def run_events : List ApiEvent → AgentState → AgentState
  | [], s => s
  | ev :: rest, s => run_events rest (apply_event ev s)

/-- The state carried by either outcome of a fallible step. -/
def result_state : Except AgentState AgentState → AgentState
  | .error s => s
  | .ok s => s

/-- Whether a fallible step returned normally. -/
def result_ok : Except AgentState AgentState → Bool
  | .error _ => false
  | .ok _ => true

/-- Whether a search response contains at least one item (the code takes
`items[0]` in that case). -/
def search_has_hit : SearchResponse → Bool
  | .items (_ :: _) => true
  | _ => false

/-- Whether a detail response parses to an artist object. -/
def detail_has_payload : DetailResponse → Bool
  | .payload _ => true
  | _ => false

/-- Whether a token response lets `get_access_token` complete: a body with
both `access_token` and `expires_in` present. -/
def tok_good : TokenResponse → Bool
  | .body (some _) (some _) => true
  | _ => false

/-- Whether a whole entity iteration is a full success: both token checks
can refresh if needed, the search has a hit, and the details parse and
pass the quality gate. -/
def entity_succeeds (e : EntityEnv) : Bool :=
  tok_good e.tok1 && tok_good e.tok2 && search_has_hit e.search &&
    (match e.detail with
     | .payload d => assess_data_quality (some d)
     | _ => false)

/-- One step of the delay controller, as interleaved by the agent:
a failure escalation (`adapt_delay`) or a between-request pacing call
(`respectful_delay`). -/
inductive DelayOp where
  | failure : DelayOp
  | pace : DelayOp

/-- Apply one delay-controller step to the agent state. -/
def apply_delay_op (min_delay : ℚ) : DelayOp → AgentState → AgentState
  | .failure, s => adapt_delay s
  | .pace, s => respectful_delay min_delay s

/-- Apply a sequence of delay-controller steps. -/
def run_delay_ops (min_delay : ℚ) : List DelayOp → AgentState → AgentState
  | [], s => s
  | op :: rest, s => run_delay_ops min_delay rest (apply_delay_op min_delay op s)

/-- The bookkeeping fields that token operations never touch: a token
refresh attempt, whichever way it ends, changes only `token` and
`token_expiry`. -/
def pres (s1 s : AgentState) : Prop :=
  s1.stats = s.stats ∧ s1.collected_artists = s.collected_artists ∧
    s1.delay = s.delay ∧ s1.respectful_calls = s.respectful_calls

/-- The corrected statistics invariant: the total-request counter never
exceeds the sum of the successful and failed counters. -/
def stats_ineq (s : AgentState) : Prop :=
  s.stats.total_requests ≤ s.stats.successful_requests + s.stats.failed_requests

/-- The result-list/counter invariant: the collected list is exactly as
long as the `quality_passed` counter. -/
def collected_eq (s : AgentState) : Prop :=
  s.collected_artists.length = s.stats.quality_passed

/-- A concrete artist object with every field present and a non-empty
genre list. -/
def artistPop : ArtistData :=
  { id := some "id1"
    name := some "Artist"
    genres := some ["pop"]
    spotify_url := some "url"
    popularity := some 50
    followers := some 1000 }

/-- A fully successful entity iteration: token exchanges succeed, the
search returns one hit, the details parse and pass the quality gate. -/
def envGood : EntityEnv :=
  { now1 := 0
    tok1 := .body (some "tok") (some 3600)
    search := .items [artistPop]
    now2 := 0
    tok2 := .body (some "tok") (some 3600)
    detail := .payload artistPop }

/-- An entity iteration whose search succeeds at the HTTP level but
returns an empty items list. -/
def envEmptySearch : EntityEnv :=
  { envGood with search := .items [] }

/-- An entity iteration whose first token refresh fails with a network
error. -/
def envTokenFail : EntityEnv :=
  { envGood with tok1 := .netError }

/-- A state holding a previously obtained token. -/
def staleState : AgentState :=
  { initState 1 with token := some "stale", token_expiry := some 100 }

/-- A state holding a token that is still comfortably within its validity
window at time 0. -/
def validState : AgentState :=
  { initState 1 with token := some "tok", token_expiry := some 1000 }

/-- The state after a successful refresh at time 0 with a one-hour
token. -/
def refreshedState : AgentState :=
  { initState 1 with token := some "tok", token_expiry := some (0 + 3600) }

/-! ### Helper lemmas -/

theorem pres_refl (s : AgentState) : pres s s := ⟨rfl, rfl, rfl, rfl⟩

/-- Whatever the response, a token-validity check leaves the statistics,
results, delay and pacing counter untouched, whether it returns or
raises. -/
theorem ensure_cases (now : ℚ) (s : AgentState) (r : TokenResponse) :
    (∃ s1, ensure_token_valid now s r = .error s1 ∧ pres s1 s) ∨
    (∃ s1 n, ensure_token_valid now s r = .ok (s1, n) ∧ pres s1 s) := by
  unfold ensure_token_valid
  by_cases h : needs_refresh now s = true
  · rw [if_pos h]
    rcases r with _ | _ | _ | ⟨tok, exp⟩
    · exact .inl ⟨s, rfl, pres_refl s⟩
    · exact .inl ⟨s, rfl, pres_refl s⟩
    · exact .inl ⟨s, rfl, pres_refl s⟩
    · rcases tok with _ | t
      · exact .inl ⟨s, rfl, pres_refl s⟩
      · rcases exp with _ | x
        · exact .inl ⟨_, rfl, ⟨rfl, rfl, rfl, rfl⟩⟩
        · exact .inr ⟨_, 1, rfl, ⟨rfl, rfl, rfl, rfl⟩⟩
  · rw [if_neg h]
    exact .inr ⟨s, 0, rfl, pres_refl s⟩

/-- A token response carrying both fields always lets the validity check
return normally. -/
theorem ensure_token_valid_good (now : ℚ) (s : AgentState) (t : String) (x : ℚ) :
    ∃ s1 n, ensure_token_valid now s (.body (some t) (some x)) = .ok (s1, n) ∧ pres s1 s := by
  unfold ensure_token_valid
  by_cases h : needs_refresh now s = true
  · rw [if_pos h]
    exact ⟨_, 1, rfl, ⟨rfl, rfl, rfl, rfl⟩⟩
  · rw [if_neg h]
    exact ⟨s, 0, rfl, pres_refl s⟩

/-- A token response missing either field makes the refresh raise. -/
theorem get_access_token_fails (now : ℚ) (s : AgentState) (r : TokenResponse)
    (h : tok_good r = false) : ∃ s1, get_access_token now s r = .error s1 := by
  rcases r with _ | _ | _ | ⟨tok, exp⟩
  · exact ⟨s, rfl⟩
  · exact ⟨s, rfl⟩
  · exact ⟨s, rfl⟩
  · rcases tok with _ | t
    · exact ⟨s, rfl⟩
    · rcases exp with _ | x
      · exact ⟨_, rfl⟩
      · simp [tok_good] at h

/-- A good token response is a body with both fields. -/
theorem tok_good_elim (r : TokenResponse) (h : tok_good r = true) :
    ∃ t x, r = .body (some t) (some x) := by
  rcases r with _ | _ | _ | ⟨tok, exp⟩ <;> simp [tok_good] at h
  rcases tok with _ | t
  · simp at h
  · rcases exp with _ | x
    · simp at h
    · exact ⟨t, x, rfl⟩

/-- `respectful_delay` leaves the statistics untouched. -/
theorem respectful_stats (min_delay : ℚ) (s : AgentState) :
    (respectful_delay min_delay s).stats = s.stats := by
  unfold respectful_delay
  dsimp only
  split <;> rfl

/-- `respectful_delay` leaves the result list untouched. -/
theorem respectful_collected (min_delay : ℚ) (s : AgentState) :
    (respectful_delay min_delay s).collected_artists = s.collected_artists := by
  unfold respectful_delay
  dsimp only
  split <;> rfl

/-- `respectful_delay` performs exactly one sleep. -/
theorem respectful_calls_eq (min_delay : ℚ) (s : AgentState) :
    (respectful_delay min_delay s).respectful_calls = s.respectful_calls + 1 := by
  unfold respectful_delay
  dsimp only
  split <;> rfl

/-- Shape of a `search_artist` call: it either re-raises a token failure
with bookkeeping untouched, or returns; on return the result list, pacing
counter and quality counter are untouched, the total counter grows by at
most one and by no more than the successful+failed counters grow, and an
artist is returned exactly when the response held a hit. -/
theorem search_artist_shape (now : ℚ) (s : AgentState) (rt : TokenResponse) (r : SearchResponse) :
    (∃ s1, search_artist now s rt r = .error s1 ∧ pres s1 s) ∨
    (∃ s1 o, search_artist now s rt r = .ok (s1, o) ∧
      s1.collected_artists = s.collected_artists ∧
      s1.respectful_calls = s.respectful_calls ∧
      s1.stats.quality_passed = s.stats.quality_passed ∧
      s1.stats.total_requests + (s.stats.successful_requests + s.stats.failed_requests) ≤
        s1.stats.successful_requests + s1.stats.failed_requests + s.stats.total_requests ∧
      o.isSome = search_has_hit r) := by
  rcases ensure_cases now s rt with ⟨s1, hens, hp⟩ | ⟨s0, n, hens, hp⟩
  · refine .inl ⟨s1, ?_, hp⟩
    unfold search_artist
    rw [hens]
  · obtain ⟨hst, hco, hde, hre⟩ := hp
    rcases r with _ | _ | _ | l
    · refine .inr ⟨adapt_delay (bump_failed s0), none, ?_, ?_, ?_, ?_, ?_, rfl⟩ <;>
        simp [search_artist, hens, adapt_delay, bump_failed, hst, hco, hre]
      omega
    · refine .inr ⟨adapt_delay (bump_failed (bump_total s0)), none, ?_, ?_, ?_, ?_, ?_, rfl⟩ <;>
        simp [search_artist, hens, adapt_delay, bump_failed, bump_total, hst, hco, hre]
      omega
    · refine .inr ⟨adapt_delay (bump_failed (bump_success (bump_total s0))), none,
        ?_, ?_, ?_, ?_, ?_, rfl⟩ <;>
        simp [search_artist, hens, adapt_delay, bump_failed, bump_success, bump_total, hst, hco, hre]
      omega
    · rcases l with _ | ⟨a, l⟩
      · refine .inr ⟨bump_failed (bump_success (bump_total s0)), none, ?_, ?_, ?_, ?_, ?_, rfl⟩ <;>
          simp [search_artist, hens, bump_failed, bump_success, bump_total, hst, hco, hre,
            search_has_hit]
        omega
      · refine .inr ⟨bump_success (bump_total s0), some a, ?_, ?_, ?_, ?_, ?_, rfl⟩ <;>
          simp [search_artist, hens, bump_success, bump_total, hst, hco, hre, search_has_hit]
        omega

/-- Shape of a `get_artist_details` call, mirroring `search_artist_shape`. -/
theorem get_artist_details_shape (now : ℚ) (s : AgentState) (rt : TokenResponse) (r : DetailResponse) :
    (∃ s1, get_artist_details now s rt r = .error s1 ∧ pres s1 s) ∨
    (∃ s1 o, get_artist_details now s rt r = .ok (s1, o) ∧
      s1.collected_artists = s.collected_artists ∧
      s1.respectful_calls = s.respectful_calls ∧
      s1.stats.quality_passed = s.stats.quality_passed ∧
      s1.stats.total_requests + (s.stats.successful_requests + s.stats.failed_requests) ≤
        s1.stats.successful_requests + s1.stats.failed_requests + s.stats.total_requests ∧
      o.isSome = detail_has_payload r) := by
  rcases ensure_cases now s rt with ⟨s1, hens, hp⟩ | ⟨s0, n, hens, hp⟩
  · refine .inl ⟨s1, ?_, hp⟩
    unfold get_artist_details
    rw [hens]
  · obtain ⟨hst, hco, hde, hre⟩ := hp
    rcases r with _ | _ | _ | d
    · refine .inr ⟨adapt_delay (bump_failed s0), none, ?_, ?_, ?_, ?_, ?_, rfl⟩ <;>
        simp [get_artist_details, hens, adapt_delay, bump_failed, hst, hco, hre]
      omega
    · refine .inr ⟨adapt_delay (bump_failed (bump_total s0)), none, ?_, ?_, ?_, ?_, ?_, rfl⟩ <;>
        simp [get_artist_details, hens, adapt_delay, bump_failed, bump_total, hst, hco, hre]
      omega
    · refine .inr ⟨adapt_delay (bump_failed (bump_success (bump_total s0))), none,
        ?_, ?_, ?_, ?_, ?_, rfl⟩ <;>
        simp [get_artist_details, hens, adapt_delay, bump_failed, bump_success, bump_total, hst,
          hco, hre]
      omega
    · refine .inr ⟨bump_success (bump_total s0), some d, ?_, ?_, ?_, ?_, ?_, rfl⟩ <;>
        simp [get_artist_details, hens, bump_success, bump_total, hst, hco, hre, detail_has_payload]
      omega

/-- Effect of the quality-gate-and-pace tail of an iteration: the request
counters are untouched, exactly one sleep happens, and the result list and
the `quality_passed` counter grow together by one exactly when the gate
passes. -/
theorem collect_if_quality_effects (min_delay : ℚ) (basic details : ArtistData) (s2 : AgentState) :
    (collect_if_quality min_delay basic details s2).stats.total_requests =
      s2.stats.total_requests ∧
    (collect_if_quality min_delay basic details s2).stats.successful_requests =
      s2.stats.successful_requests ∧
    (collect_if_quality min_delay basic details s2).stats.failed_requests =
      s2.stats.failed_requests ∧
    (collect_if_quality min_delay basic details s2).respectful_calls =
      s2.respectful_calls + 1 ∧
    (collect_if_quality min_delay basic details s2).collected_artists.length =
      s2.collected_artists.length +
        (if assess_data_quality (some details) then 1 else 0) ∧
    (collect_if_quality min_delay basic details s2).stats.quality_passed =
      s2.stats.quality_passed + (if assess_data_quality (some details) then 1 else 0) := by
  unfold collect_if_quality
  split <;>
    simp [respectful_stats, respectful_collected, respectful_calls_eq]

/-- Effect of the post-search part of an iteration: the invariants are
preserved and a sleep happens exactly when the detail response parsed. -/
theorem detail_and_collect_effects (min_delay : ℚ) (e : EntityEnv) (basic : ArtistData)
    (s1 : AgentState) :
    (stats_ineq s1 → stats_ineq (result_state (detail_and_collect min_delay e basic s1))) ∧
    (collected_eq s1 → collected_eq (result_state (detail_and_collect min_delay e basic s1))) ∧
    (result_state (detail_and_collect min_delay e basic s1)).respectful_calls =
      s1.respectful_calls +
        (if result_ok (detail_and_collect min_delay e basic s1) &&
            detail_has_payload e.detail then 1 else 0) := by
  rcases get_artist_details_shape e.now2 s1 e.tok2 e.detail with
    ⟨s2, hd, hst, hco, hde, hre⟩ | ⟨s2, o, hd, hc, hr, hq, hx, ho⟩
  · have hpe : detail_and_collect min_delay e basic s1 = .error s2 := by
      unfold detail_and_collect
      rw [hd]
    rw [hpe]
    refine ⟨?_, ?_, ?_⟩
    · intro h
      simpa [result_state, stats_ineq, hst] using h
    · intro h
      simpa [result_state, collected_eq, hco, hst] using h
    · simp [result_state, result_ok, hre]
  · rcases o with _ | details
    · have hpe : detail_and_collect min_delay e basic s1 = .ok s2 := by
        unfold detail_and_collect
        rw [hd]
      have hdp : detail_has_payload e.detail = false := by
        simpa using ho.symm
      rw [hpe]
      refine ⟨?_, ?_, ?_⟩
      · intro h
        simp only [stats_ineq, result_state] at h ⊢
        omega
      · intro h
        simp only [collected_eq, result_state] at h ⊢
        rw [hc, hq]
        exact h
      · simp [result_state, result_ok, hdp, hr]
    · have hpe : detail_and_collect min_delay e basic s1 =
          .ok (collect_if_quality min_delay basic details s2) := by
        unfold detail_and_collect
        rw [hd]
      have hdp : detail_has_payload e.detail = true := by
        simpa using ho.symm
      obtain ⟨ct, cs, cf, cr, cl, cq⟩ := collect_if_quality_effects min_delay basic details s2
      rw [hpe]
      refine ⟨?_, ?_, ?_⟩
      · intro h
        simp only [stats_ineq, result_state] at h ⊢
        rw [ct, cs, cf]
        omega
      · intro h
        simp only [collected_eq, result_state] at h ⊢
        rw [cl, cq, hc, hq]
        omega
      · simp [result_state, result_ok, hdp, cr, hr]

/-- Effect of one whole loop iteration: the statistics inequality and the
list/counter equality are preserved whichever way it ends, and exactly one
sleep happens precisely when the iteration returned normally after a
search hit and a parsed detail response. -/
theorem process_artist_effects (min_delay : ℚ) (e : EntityEnv) (s : AgentState) :
    (stats_ineq s → stats_ineq (result_state (process_artist min_delay e s))) ∧
    (collected_eq s → collected_eq (result_state (process_artist min_delay e s))) ∧
    (result_state (process_artist min_delay e s)).respectful_calls =
      s.respectful_calls +
        (if result_ok (process_artist min_delay e s) && search_has_hit e.search &&
            detail_has_payload e.detail then 1 else 0) := by
  rcases search_artist_shape e.now1 s e.tok1 e.search with
    ⟨s1, hs, hst, hco, hde, hre⟩ | ⟨s1, o, hs, hc, hr, hq, hx, ho⟩
  · have hpe : process_artist min_delay e s = .error s1 := by
      unfold process_artist
      rw [hs]
    rw [hpe]
    refine ⟨?_, ?_, ?_⟩
    · intro h
      simpa [result_state, stats_ineq, hst] using h
    · intro h
      simpa [result_state, collected_eq, hco, hst] using h
    · simp [result_state, result_ok, hre]
  · rcases o with _ | basic
    · have hpe : process_artist min_delay e s = .ok s1 := by
        unfold process_artist
        rw [hs]
      have hsh : search_has_hit e.search = false := by
        simpa using ho.symm
      rw [hpe]
      refine ⟨?_, ?_, ?_⟩
      · intro h
        simp only [stats_ineq, result_state] at h ⊢
        omega
      · intro h
        simp only [collected_eq, result_state] at h ⊢
        rw [hc, hq]
        exact h
      · simp [result_state, result_ok, hsh, hr]
    · have hpe : process_artist min_delay e s = detail_and_collect min_delay e basic s1 := by
        unfold process_artist
        rw [hs]
      have hsh : search_has_hit e.search = true := by
        simpa using ho.symm
      obtain ⟨d1, d2, d3⟩ := detail_and_collect_effects min_delay e basic s1
      rw [hpe]
      refine ⟨?_, ?_, ?_⟩
      · intro h
        apply d1
        simp only [stats_ineq] at h ⊢
        omega
      · intro h
        apply d2
        simp only [collected_eq] at h ⊢
        rw [hc, hq]
        exact h
      · rw [d3, hr, hsh]
        simp

/-- A single API call, whichever way it ends, preserves the statistics
inequality and the list/counter equality. -/
theorem apply_event_preserves (ev : ApiEvent) (s : AgentState) :
    (stats_ineq s → stats_ineq (apply_event ev s)) ∧
    (collected_eq s → collected_eq (apply_event ev s)) := by
  rcases ev with ⟨now, tok, r⟩ | ⟨now, tok, r⟩
  · rcases search_artist_shape now s tok r with
      ⟨s1, hs, hst, hco, hde, hre⟩ | ⟨s1, o, hs, hc, hr, hq, hx, ho⟩
    · have hpe : apply_event (.search now tok r) s = s1 := by
        simp only [apply_event, hs]
      rw [hpe]
      constructor <;> intro h
      · simpa [stats_ineq, hst] using h
      · simpa [collected_eq, hco, hst] using h
    · have hpe : apply_event (.search now tok r) s = s1 := by
        simp only [apply_event, hs]
      rw [hpe]
      constructor <;> intro h
      · simp only [stats_ineq] at h ⊢
        omega
      · simp only [collected_eq] at h ⊢
        rw [hc, hq]
        exact h
  · rcases get_artist_details_shape now s tok r with
      ⟨s1, hs, hst, hco, hde, hre⟩ | ⟨s1, o, hs, hc, hr, hq, hx, ho⟩
    · have hpe : apply_event (.detail now tok r) s = s1 := by
        simp only [apply_event, hs]
      rw [hpe]
      constructor <;> intro h
      · simpa [stats_ineq, hst] using h
      · simpa [collected_eq, hco, hst] using h
    · have hpe : apply_event (.detail now tok r) s = s1 := by
        simp only [apply_event, hs]
      rw [hpe]
      constructor <;> intro h
      · simp only [stats_ineq] at h ⊢
        omega
      · simp only [collected_eq] at h ⊢
        rw [hc, hq]
        exact h

/-- Any sequence of API calls preserves both invariants. -/
theorem run_events_preserves (evs : List ApiEvent) (s : AgentState) :
    (stats_ineq s → stats_ineq (run_events evs s)) ∧
    (collected_eq s → collected_eq (run_events evs s)) := by
  induction evs generalizing s with
  | nil => exact ⟨fun h => h, fun h => h⟩
  | cons ev rest ih =>
    exact ⟨fun h => (ih (apply_event ev s)).1 ((apply_event_preserves ev s).1 h),
      fun h => (ih (apply_event ev s)).2 ((apply_event_preserves ev s).2 h)⟩

/-- The whole orchestration loop, whichever way it ends, preserves both
invariants. -/
theorem run_preserves (min_delay : ℚ) (envs : List EntityEnv) (s : AgentState) :
    (stats_ineq s → stats_ineq (result_state (run min_delay envs s))) ∧
    (collected_eq s → collected_eq (result_state (run min_delay envs s))) := by
  induction envs generalizing s with
  | nil => exact ⟨fun h => h, fun h => h⟩
  | cons e rest ih =>
    obtain ⟨p1, p2, _⟩ := process_artist_effects min_delay e s
    cases hpe : process_artist min_delay e s with
    | error s1 =>
      have hre : run min_delay (e :: rest) s = .error s1 := by
        simp only [run, hpe]
      rw [hre]
      rw [hpe] at p1 p2
      exact ⟨fun h => p1 h, fun h => p2 h⟩
    | ok s1 =>
      have hre : run min_delay (e :: rest) s = run min_delay rest s1 := by
        simp only [run, hpe]
      rw [hre]
      rw [hpe] at p1 p2
      exact ⟨fun h => (ih s1).1 (p1 h), fun h => (ih s1).2 (p2 h)⟩

/-- One delay-controller step keeps the delay inside `[floor, 10]`. -/
theorem delay_band_step (min_delay : ℚ) (op : DelayOp) (s : AgentState)
    (h0 : 0 ≤ min_delay) (h10 : min_delay ≤ 10)
    (hl : min_delay ≤ s.delay) (hu : s.delay ≤ 10) :
    min_delay ≤ (apply_delay_op min_delay op s).delay ∧
      (apply_delay_op min_delay op s).delay ≤ 10 := by
  cases op
  · constructor
    · show min_delay ≤ min (s.delay * 2) 10
      apply le_min _ h10
      linarith
    · show min (s.delay * 2) 10 ≤ 10
      exact min_le_right _ _
  · show min_delay ≤ (respectful_delay min_delay s).delay ∧
      (respectful_delay min_delay s).delay ≤ 10
    unfold respectful_delay
    dsimp only
    split
    · constructor
      · exact le_max_right _ _
      · apply max_le _ h10
        linarith
    · exact ⟨hl, hu⟩

/-- A fully successful iteration returns normally, bumps `total` and
`successful` by two (one search, one detail fetch), leaves `failed`
untouched, and passes exactly one record through the quality gate. -/
theorem process_artist_success (min_delay : ℚ) (e : EntityEnv) (s : AgentState)
    (h : entity_succeeds e = true) :
    ∃ s1, process_artist min_delay e s = .ok s1 ∧
      s1.stats.total_requests = s.stats.total_requests + 2 ∧
      s1.stats.successful_requests = s.stats.successful_requests + 2 ∧
      s1.stats.failed_requests = s.stats.failed_requests ∧
      s1.stats.quality_passed = s.stats.quality_passed + 1 ∧
      s1.collected_artists.length = s.collected_artists.length + 1 := by
  rcases e with ⟨now1, tok1, sr, now2, tok2, dr⟩
  simp only [entity_succeeds, Bool.and_eq_true] at h
  obtain ⟨⟨⟨ht1, ht2⟩, hsh⟩, hq⟩ := h
  obtain ⟨ta, xa, rfl⟩ := tok_good_elim _ ht1
  obtain ⟨tb, xb, rfl⟩ := tok_good_elim _ ht2
  rcases sr with _ | _ | _ | l
  · simp [search_has_hit] at hsh
  · simp [search_has_hit] at hsh
  · simp [search_has_hit] at hsh
  · rcases l with _ | ⟨a, l⟩
    · simp [search_has_hit] at hsh
    · rcases dr with _ | _ | _ | d
      · simp at hq
      · simp at hq
      · simp at hq
      · have hq2 : assess_data_quality (some d) = true := hq
        obtain ⟨s0, n0, hens1, hst1, hco1, hde1, hre1⟩ :=
          ensure_token_valid_good now1 s ta xa
        have hsearch : search_artist now1 s (.body (some ta) (some xa)) (.items (a :: l)) =
            .ok (bump_success (bump_total s0), some a) := by
          unfold search_artist
          rw [hens1]
        obtain ⟨s2, n2, hens2, hst2, hco2, hde2, hre2⟩ :=
          ensure_token_valid_good now2 (bump_success (bump_total s0)) tb xb
        have hdetail : get_artist_details now2 (bump_success (bump_total s0))
            (.body (some tb) (some xb)) (.payload d) =
            .ok (bump_success (bump_total s2), some d) := by
          unfold get_artist_details
          rw [hens2]
        obtain ⟨ct, cs, cf, cr, cl, cq⟩ :=
          collect_if_quality_effects min_delay a d (bump_success (bump_total s2))
        refine ⟨collect_if_quality min_delay a d (bump_success (bump_total s2)),
          ?_, ?_, ?_, ?_, ?_, ?_⟩
        · simp only [process_artist, hsearch, detail_and_collect, hdetail]
        · rw [ct]
          simp only [bump_success, bump_total, hst2, hst1]
        · rw [cs]
          simp only [bump_success, bump_total, hst2, hst1]
        · rw [cf]
          simp only [bump_success, bump_total, hst2, hst1]
        · rw [cq]
          simp [hq2, bump_success, bump_total, hst2, hst1]
        · rw [cl]
          simp [hq2, bump_success, bump_total, hco2, hco1]

/-- Any sequence of delay-controller steps keeps the delay inside
`[floor, 10]`. -/
theorem delay_band_ops (min_delay : ℚ) (ops : List DelayOp) (s : AgentState)
    (h0 : 0 ≤ min_delay) (h10 : min_delay ≤ 10)
    (hl : min_delay ≤ s.delay) (hu : s.delay ≤ 10) :
    min_delay ≤ (run_delay_ops min_delay ops s).delay ∧
      (run_delay_ops min_delay ops s).delay ≤ 10 := by
  induction ops generalizing s with
  | nil => exact ⟨hl, hu⟩
  | cons op rest ih =>
    obtain ⟨h1, h2⟩ := delay_band_step min_delay op s h0 h10 hl hu
    exact ih (apply_delay_op min_delay op s) h1 h2

/-! ### Claim theorems -/

/-- Claim C1, counterexample: one `search_artist` call whose HTTP request
succeeds but whose items list is empty bumps all three request counters,
so afterwards `total_requests = 1` while
`successful_requests + failed_requests = 2` — the claimed identity
`total == successful + failed` fails at that point of the run. -/
theorem stats_identity_cex :
    ¬ ((apply_event (.search 0 (.body (some "t") (some 3600)) (.items []))
          (initState 1)).stats.total_requests
        = (apply_event (.search 0 (.body (some "t") (some 3600)) (.items []))
            (initState 1)).stats.successful_requests
          + (apply_event (.search 0 (.body (some "t") (some 3600)) (.items []))
              (initState 1)).stats.failed_requests) := by
  decide

/-- Claim C1, amended: at every point during a run — after any sequence of
`search_artist` and `get_artist_details` calls with any outcome, and at
either ending of any orchestration loop — the statistics satisfy
`total_requests ≤ successful_requests + failed_requests`. Equality can
fail: an empty result set bumps `successful` and `failed` together, and a
request raising in flight bumps `failed` without `total`. -/
theorem stats_total_le (min_delay : ℚ) (evs : List ApiEvent) (envs : List EntityEnv) :
    stats_ineq (run_events evs (initState min_delay)) ∧
    stats_ineq (result_state (run min_delay envs (initState min_delay))) :=
  ⟨(run_events_preserves evs (initState min_delay)).1 (Nat.le_refl 0),
   (run_preserves min_delay envs (initState min_delay)).1 (Nat.le_refl 0)⟩

/-- Claim C3, counterexample: an entity whose search succeeds at the HTTP
level but returns an empty result set ends its iteration normally

(the loop advances to the next entity) with zero `respectful_delay`
calls, not exactly one. -/
theorem pacing_skipped_cex :
    result_ok (process_artist 1 envEmptySearch (initState 1)) = true ∧
    (result_state (process_artist 1 envEmptySearch (initState 1))).respectful_calls = 0 := by
  decide

/-- Claim C3, amended: `respectful_delay` runs exactly once for an
iteration precisely when the iteration returns normally after a search
hit and a parsed detail response (reaching the quality gate, pass or
fail); iterations ending early — empty or failed search, failed detail
fetch, or a propagating token-refresh failure — perform no
`respectful_delay` call before the loop advances. -/
theorem respectful_delay_once_iff (min_delay : ℚ) (e : EntityEnv) (s : AgentState) :
    (result_state (process_artist min_delay e s)).respectful_calls =
      s.respectful_calls +
        (if result_ok (process_artist min_delay e s) && search_has_hit e.search &&
            detail_has_payload e.detail then 1 else 0) :=
  (process_artist_effects min_delay e s).2.2

/-- Claim C10 (confirmed): at every point during a run — after any
sequence of API calls with any outcome, and at either ending of any
orchestration loop — the collected list is exactly as long as the
`quality_passed` counter: the admission branch appends one record and
bumps the counter together, and nothing else touches either. -/
theorem collected_matches_quality (min_delay : ℚ) (evs : List ApiEvent) (envs : List EntityEnv) :
    collected_eq (run_events evs (initState min_delay)) ∧
    collected_eq (result_state (run min_delay envs (initState min_delay))) :=
  ⟨(run_events_preserves evs (initState min_delay)).2 rfl,
   (run_preserves min_delay envs (initState min_delay)).2 rfl⟩

/-- Claim C7 (confirmed): the quality gate accepts a record exactly when
it has a present, non-empty name and a present, non-empty genre list,
regardless of every other field; in particular a record with an empty
genre list is always rejected. -/
theorem assess_data_quality_iff (a : ArtistData) :
    assess_data_quality (some a) = true ↔
      ((∃ nm, a.name = some nm ∧ nm ≠ "") ∧ ∃ g, a.genres = some g ∧ g ≠ []) := by
  rcases a with ⟨i, nm, g, u, p, f⟩
  rcases nm with _ | nm <;> rcases g with _ | g <;>
    simp [assess_data_quality, truthy_str, truthy_list, String.isEmpty_iff,
      List.isEmpty_iff, List.length_pos, Bool.eq_false_iff, ne_eq]

/-- Claim C4 (confirmed, under the configuration sanity conditions
`0 ≤ floor_delay ≤ 10`): starting from `delay = floor_delay`, after `N`
consecutive `adapt_delay` calls with no intervening decay the delay equals
`min (floor_delay * 2 ^ N) 10`, and the sequence is monotonically
non-decreasing in `N`. -/
theorem adapt_delay_escalation (floor : ℚ) (s : AgentState) (h0 : 0 ≤ floor)
    (h10 : floor ≤ 10) (hs : s.delay = floor) (N : Nat) :
    (adapt_delay^[N] s).delay = min (floor * 2 ^ N) 10 ∧
    (adapt_delay^[N] s).delay ≤ (adapt_delay^[N + 1] s).delay := by
  have key : ∀ M : Nat, (adapt_delay^[M] s).delay = min (floor * 2 ^ M) 10 := by
    intro M
    induction M with
    | zero =>
      simp only [Function.iterate_zero, id_eq, pow_zero, mul_one, hs]
      exact (min_eq_left h10).symm
    | succ n ih =>
      rw [Function.iterate_succ_apply']
      show min ((adapt_delay^[n] s).delay * 2) 10 = _
      rw [ih]
      rcases le_total (floor * 2 ^ n) 10 with h | h
      · rw [min_eq_left h, pow_succ, ← mul_assoc]
      · rw [min_eq_right h]
        have h1 : (10 : ℚ) ≤ floor * 2 ^ (n + 1) := by
          calc (10 : ℚ) ≤ floor * 2 ^ n := h
          _ ≤ floor * 2 ^ (n + 1) :=
            mul_le_mul_of_nonneg_left (pow_le_pow_right₀ (by norm_num) (Nat.le_succ n)) h0
        rw [min_eq_right h1]
        norm_num
  refine ⟨key N, ?_⟩
  rw [key N, key (N + 1)]
  exact min_le_min
    (mul_le_mul_of_nonneg_left (pow_le_pow_right₀ (by norm_num) (Nat.le_succ N)) h0) le_rfl

/-- Claim C4 witness: with floor 1, after 2 escalations the delay is
`min (1 * 2 ^ 2) 10` and the third escalation does not decrease it. -/
theorem adapt_delay_escalation_witness :
    (adapt_delay^[2] (initState 1)).delay = min ((1 : ℚ) * 2 ^ 2) 10 ∧
    (adapt_delay^[2] (initState 1)).delay ≤ (adapt_delay^[2 + 1] (initState 1)).delay :=
  adapt_delay_escalation 1 (initState 1) (by norm_num) (by norm_num) rfl 2

/-- Claim C5 (confirmed, under the configuration sanity conditions
`0 ≤ floor_delay ≤ 10`): starting at the floor, every interleaving of
failure escalations and pacing decays keeps the delay within
`[floor_delay, 10]` at all times — escalation never exceeds the ceiling
and decay never undershoots the floor. -/
theorem delay_stays_in_band (min_delay : ℚ) (ops : List DelayOp)
    (h0 : 0 ≤ min_delay) (h10 : min_delay ≤ 10) :
    min_delay ≤ (run_delay_ops min_delay ops (initState min_delay)).delay ∧
      (run_delay_ops min_delay ops (initState min_delay)).delay ≤ 10 :=
  delay_band_ops min_delay ops (initState min_delay) h0 h10 (le_refl _) h10

/-- Claim C5 witness: with floor 1, one escalation followed by one decay
leaves the delay inside `[1, 10]`. -/
theorem delay_stays_in_band_witness :
    (1 : ℚ) ≤ (run_delay_ops 1 [DelayOp.failure, DelayOp.pace] (initState 1)).delay ∧
      (run_delay_ops 1 [DelayOp.failure, DelayOp.pace] (initState 1)).delay ≤ 10 :=
  delay_stays_in_band 1 [DelayOp.failure, DelayOp.pace] (by norm_num) (by norm_num)

/-- Claim C2, counterexample: a refresh whose response body carries
`access_token` but no `expires_in` raises only after `self.token` has been
overwritten, so this failed refresh does mutate the existing token — the
claimed state preservation fails for this failure mode. -/
theorem refresh_mutates_cex :
    get_access_token 0 staleState (.body (some "fresh") none) =
      .error { staleState with token := some "fresh" } ∧
    ({ staleState with token := some "fresh" } : AgentState).token ≠ staleState.token := by
  constructor
  · rfl
  · decide

/-- Claim C2, amended: every failing refresh raises; the expiry,
statistics, results, delay and pacing counter are always unchanged, and
the token value is unchanged in every failure mode except one — a body
carrying `access_token` but lacking `expires_in`, where the token has
already been overwritten with the new value when the error is raised. -/
theorem refresh_failure_state (now : ℚ) (s : AgentState) (r : TokenResponse) (s1 : AgentState)
    (h : get_access_token now s r = .error s1) :
    s1.token_expiry = s.token_expiry ∧ s1.stats = s.stats ∧
    s1.collected_artists = s.collected_artists ∧ s1.delay = s.delay ∧
    s1.respectful_calls = s.respectful_calls ∧
    (s1.token = s.token ∨ ∃ t, r = .body (some t) none ∧ s1.token = some t) := by
  rcases r with _ | _ | _ | ⟨tok, exp⟩
  · simp only [get_access_token, Except.error.injEq] at h
    subst h
    exact ⟨rfl, rfl, rfl, rfl, rfl, .inl rfl⟩
  · simp only [get_access_token, Except.error.injEq] at h
    subst h
    exact ⟨rfl, rfl, rfl, rfl, rfl, .inl rfl⟩
  · simp only [get_access_token, Except.error.injEq] at h
    subst h
    exact ⟨rfl, rfl, rfl, rfl, rfl, .inl rfl⟩
  · rcases tok with _ | t
    · simp only [get_access_token, Except.error.injEq] at h
      subst h
      exact ⟨rfl, rfl, rfl, rfl, rfl, .inl rfl⟩
    · rcases exp with _ | x
      · simp only [get_access_token, Except.error.injEq] at h
        subst h
        exact ⟨rfl, rfl, rfl, rfl, rfl, .inr ⟨t, rfl, rfl⟩⟩
      · exact Except.noConfusion h

/-- Claim C2 witness: applying the amended theorem to a network error on a
state holding a stale token. -/
theorem refresh_failure_state_witness :
    staleState.token_expiry = staleState.token_expiry ∧ staleState.stats = staleState.stats ∧
    staleState.collected_artists = staleState.collected_artists ∧
    staleState.delay = staleState.delay ∧
    staleState.respectful_calls = staleState.respectful_calls ∧
    (staleState.token = staleState.token ∨
      ∃ t, TokenResponse.netError = .body (some t) none ∧ staleState.token = some t) :=
  refresh_failure_state 0 staleState .netError staleState rfl

/-- Claim C6, counterexample: a run whose first entity hits a failing
token refresh aborts immediately — the exception escapes `run()`, the
second entity is never processed, and the statistics are still all
zero — contradicting the claimed per-entity absorption. -/
theorem token_failure_escapes_cex :
    result_ok (run 1 [envTokenFail, envGood] (initState 1)) = false ∧
    (result_state (run 1 [envTokenFail, envGood] (initState 1))).stats = ⟨0, 0, 0, 0⟩ := by
  decide

/-- Claim C6, amended: a failed token refresh is not absorbed at the
entity: the token-validity check sits outside the try block of
`search_artist` / `get_artist_details` and `run()` has no handler, so the
exception propagates out of `run()` and aborts the whole remaining run. -/
theorem token_failure_aborts_run (min_delay : ℚ) (e : EntityEnv) (rest : List EntityEnv)
    (s : AgentState) (hn : needs_refresh e.now1 s = true) (hf : tok_good e.tok1 = false) :
    ∃ s1, run min_delay (e :: rest) s = .error s1 := by
  obtain ⟨s1, hg⟩ := get_access_token_fails e.now1 s e.tok1 hf
  have hens : ensure_token_valid e.now1 s e.tok1 = .error s1 := by
    unfold ensure_token_valid
    rw [if_pos hn, hg]
  have hsearch : search_artist e.now1 s e.tok1 e.search = .error s1 := by
    unfold search_artist
    rw [hens]
  have hproc : process_artist min_delay e s = .error s1 := by
    unfold process_artist
    rw [hsearch]
  exact ⟨s1, by simp only [run, hproc]⟩

/-- Claim C6 witness: the amended theorem applied to a concrete run whose
first entity's refresh fails with a network error. -/
theorem token_failure_aborts_run_witness :
    needs_refresh envTokenFail.now1 (initState 1) = true ∧
    tok_good envTokenFail.tok1 = false ∧
    ∃ s1, run 1 [envTokenFail, envGood] (initState 1) = .error s1 :=
  ⟨by decide, by decide,
    token_failure_aborts_run 1 envTokenFail [envGood] (initState 1) (by decide) (by decide)⟩

/-- Claim C8 (confirmed): the validity check refreshes exactly when no
token exists or the current time exceeds `expires_at - 60`; otherwise it
is a no-op returning the state unchanged with zero network calls — in
particular a second call while the token is still inside the margin after
a successful first call performs zero network calls. -/
theorem ensure_token_valid_iff (now : ℚ) (s : AgentState) (r : TokenResponse) :
    (s.token = none → needs_refresh now s = true) ∧
    (∀ t e1, s.token = some t → s.token_expiry = some e1 →
      (needs_refresh now s = true ↔ now > e1 - 60)) ∧
    (needs_refresh now s = false → ensure_token_valid now s r = .ok (s, 0)) ∧
    (needs_refresh now s = true → ensure_calls now s r = 1) ∧
    (ensure_calls now s r = 0 → needs_refresh now s = false) ∧
    (∀ s1 n t e1 now2 r2, ensure_token_valid now s r = .ok (s1, n) →
      s1.token = some t → s1.token_expiry = some e1 → now2 ≤ e1 - 60 →
      ensure_token_valid now2 s1 r2 = .ok (s1, 0)) := by
  have h3 : needs_refresh now s = false → ensure_token_valid now s r = .ok (s, 0) := by
    intro h
    unfold ensure_token_valid
    rw [if_neg (by simp [h])]
  have h4 : needs_refresh now s = true → ensure_calls now s r = 1 := by
    intro h
    unfold ensure_calls ensure_token_valid
    rw [if_pos h]
    cases hg : get_access_token now s r <;> rfl
  refine ⟨?_, ?_, h3, h4, ?_, ?_⟩
  · intro h
    simp [needs_refresh, h]
  · intro t e1 ht he
    simp [needs_refresh, ht, he]
  · intro h
    by_cases hn : needs_refresh now s = true
    · rw [h4 hn] at h
      exact absurd h (by simp)
    · simpa using hn
  · intro s1 n t e1 now2 r2 hok ht he hle
    have hnr : needs_refresh now2 s1 = false := by
      simp only [needs_refresh, ht, he, decide_eq_false_iff_not, not_lt]
      exact hle
    unfold ensure_token_valid
    rw [if_neg (by simp [hnr])]

/-- Claim C8 witness: with a token valid until time 1000 and `now = 0`,
the check is a no-op making zero network calls; and after a successful
refresh at time 0 with a one-hour token, a second check at time 100
performs zero network calls. -/
theorem ensure_token_valid_iff_witness :
    ensure_token_valid 0 validState TokenResponse.netError = .ok (validState, 0) ∧
    ensure_token_valid 100 refreshedState TokenResponse.netError = .ok (refreshedState, 0) :=
  ⟨(ensure_token_valid_iff 0 validState TokenResponse.netError).2.2.1
      (by norm_num [needs_refresh, validState, initState]),
   (ensure_token_valid_iff 0 (initState 1)
      (.body (some "tok") (some 3600))).2.2.2.2.2 refreshedState 1 "tok" (0 + 3600) 100
      TokenResponse.netError rfl rfl rfl (by norm_num)⟩

/-- Claim C9 (confirmed): with exactly three targets, when every search
returns a hit and every detail fetch succeeds and passes the quality
gate, the run completes with `total_requests = 6`,
`successful_requests = 6`, `failed_requests = 0`, `quality_passed = 3`
and three collected records. -/
theorem run_three_successes (min_delay : ℚ) (e1 e2 e3 : EntityEnv)
    (h1 : entity_succeeds e1 = true) (h2 : entity_succeeds e2 = true)
    (h3 : entity_succeeds e3 = true) :
    ∃ s1, run min_delay [e1, e2, e3] (initState min_delay) = .ok s1 ∧
      s1.stats.total_requests = 6 ∧ s1.stats.successful_requests = 6 ∧
      s1.stats.failed_requests = 0 ∧ s1.stats.quality_passed = 3 ∧
      s1.collected_artists.length = 3 := by
  obtain ⟨sa, hpa, ta, sa2, fa, qa, la⟩ :=
    process_artist_success min_delay e1 (initState min_delay) h1
  obtain ⟨sb, hpb, tb, sb2, fb, qb, lb⟩ := process_artist_success min_delay e2 sa h2
  obtain ⟨sc, hpc, tc, sc2, fc, qc, lc⟩ := process_artist_success min_delay e3 sb h3
  have z1 : (initState min_delay).stats.total_requests = 0 := rfl
  have z2 : (initState min_delay).stats.successful_requests = 0 := rfl
  have z3 : (initState min_delay).stats.failed_requests = 0 := rfl
  have z4 : (initState min_delay).stats.quality_passed = 0 := rfl
  have z5 : (initState min_delay).collected_artists.length = 0 := rfl
  refine ⟨sc, ?_, by omega, by omega, by omega, by omega, by omega⟩
  simp only [run, hpa, hpb, hpc]

/-- Claim C9 witness: a concrete run over three identical fully
successful entities. -/
theorem run_three_successes_witness :
    ∃ s1, run 1 [envGood, envGood, envGood] (initState 1) = .ok s1 ∧
      s1.stats.total_requests = 6 ∧ s1.stats.successful_requests = 6 ∧
      s1.stats.failed_requests = 0 ∧ s1.stats.quality_passed = 3 ∧
      s1.collected_artists.length = 3 :=
  run_three_successes 1 envGood envGood envGood (by decide) (by decide) (by decide)

end SpotifyAgent
